import Mathlib

/-!
Verification development for the `RedisService` cache-aside accessor layer
(`src/common/service/redis` of the repository) against its specification.

Shallow embedding conventions:
* TypeScript `string | null | undefined` values are `Option String` (both
  `null` and `undefined` collapse to `none`; the service never distinguishes
  them observably — it only tests truthiness).
* The nullable module-level `redisClient` is an explicit `Option Unit`
  parameter (`none` = not connected); the store's contents are an explicit
  `RedisState`, and possible transport failures of each store primitive are
  a `Faults` record of flags (a set flag makes that primitive throw).
* Each public operation returns an `OpRes`: the value produced for the
  caller (`Except String _`, `.error` meaning an exception escaped to the
  caller — only a fallback failure can do that), the final store state, the
  list of store calls issued (in order), how many times the caller-supplied
  fallback producer was invoked, and how many store primitives threw.
* The fallback producer is a caller-supplied async computation; we model it
  by its outcome `fb : Except String α` (`.error e` = the produced promise
  rejects with `e`).  Per JavaScript semantics, a rejection is caught by a
  surrounding `try` only where the source `await`s the fallback inside the
  `try`; a plain `return fallback()` (no `await`) adopts the promise outside
  the `try`, so its rejection reaches the caller uncaught.  The embedding of
  each operation mirrors the source's `await` placement.
-/

/-- JSON documents stored by the RedisJSON capability. -/
inductive RJson where
  | null
  | bool (b : Bool)
  | num (n : Int)
  | str (s : String)
  | arr (xs : List RJson)
  | obj (fields : List (String × RJson))

/-- Store calls as issued by the service, with their arguments (the trace). -/
inductive Call where
  | get (key : String)
  | set (key value : String)
  | del (key : String)
  | expire (key : String) (ttl : Int)
  | hGet (key field : String)
  | hSet (key : String) (value : List (String × String))
  | hDel (key : String) (fields : List String)
  | hGetAll (key : String)
  | jsonGet (key : String) (path : Option String)
  | jsonSet (key path : String) (value : RJson)

/-- Contents of the backing store: scalar strings, hashes (a key is absent
exactly when its field list is empty, as in Redis), JSON documents, and the
per-key expiry set by `expire`. -/
structure RedisState where
  strs : String → Option String
  hshs : String → List (String × String)
  docs : String → Option RJson
  ttls : String → Option Int

/-- Fault injection: a set flag makes the corresponding store primitive
throw when invoked. -/
structure Faults where
  fGet : Bool
  fSet : Bool
  fDel : Bool
  fExpire : Bool
  fHGet : Bool
  fHSet : Bool
  fHDel : Bool
  fHGetAll : Bool
  fJsonGet : Bool
  fJsonSet : Bool

/-- Result of one public operation of the service. -/
structure OpRes (α : Type) where
  ret : Except String α
  st : RedisState
  calls : List Call
  fbCalls : Nat
  storeErrs : Nat

/-- Port of `isDefined` from `src/common/helper/isEmpty.ts`
(`obj !== undefined && obj !== null`). -/
def isDefined (obj : Option α) : Bool :=
  obj.isSome

/-- JavaScript truthiness of a `string | null | undefined` value:
`null`/`undefined` and the empty string are falsy. -/
def jsTruthyStr : Option String → Bool
  | none => false
  | some s => !s.isEmpty

/-- JavaScript truthiness of a `number | undefined` value:
`undefined` and `0` are falsy. -/
def jsTruthyNum : Option Int → Bool
  | none => false
  | some n => n != 0

/-- JavaScript truthiness of a parsed JSON value: `null`, `false`, `0` and
`""` are falsy; arrays and objects (even empty) are truthy. -/
def jsTruthyJson : RJson → Bool
  | .null => false
  | .bool b => b
  | .num n => n != 0
  | .str s => !s.isEmpty
  | .arr _ => true
  | .obj _ => true

/-- Truthiness of the nullable result of a raw JSON read. -/
def jsTruthyJsonOpt : Option RJson → Bool
  | none => false
  | some j => jsTruthyJson j

/-- Does the store hold anything at `k` (any shape)?  Used by `expire`,
which in Redis has no effect on a key that does not exist. -/
def RedisState.keyExists (st : RedisState) (k : String) : Bool :=
  (st.strs k).isSome || !(st.hshs k).isEmpty || (st.docs k).isSome

/-- Merge of a written field map into an existing hash (Redis `HSET`
semantics: written fields overwrite, the others remain). -/
def hMerge (old new : List (String × String)) : List (String × String) :=
  old.filter (fun p => !(new.any (fun q => q.1 == p.1))) ++ new

/-- Field lookup in a JSON object. -/
def lookupField : List (String × RJson) → String → Option RJson
  | [], _ => none
  | (f, v) :: rest, name => if f == name then some v else lookupField rest name

/-- Field update in a JSON object (overwrites or appends). -/
def setField : List (String × RJson) → String → RJson → List (String × RJson)
  | [], name, v => [(name, v)]
  | (f, w) :: rest, name, v =>
    if f == name then (f, v) :: rest else (f, w) :: setField rest name v

/-- Model of the external RedisJSON path resolution (the store client is an
opaque external capability; the spec treats `jsonGet(key, options)` as
returning `document|null`).  Supported path grammar: the root path and a
single top-level field selector written as a root-prefixed path. -/
def pathRead (d : RJson) (p : String) : Option RJson :=
  if p == "$" then some d
  else
    match p.data with
    | '$' :: '.' :: rest =>
      match d with
      | .obj fs => lookupField fs (String.mk rest)
      | _ => none
    | _ => none

/-! ## Store primitives

Each primitive throws (`.error ()`) when its fault flag is set; otherwise it
acts on the state.  The trace entry for a call is recorded by the operation
that issues it, whether or not the call throws. -/

def pGet (flt : Faults) (st : RedisState) (k : String) :
    Except Unit (Option String) :=
  if flt.fGet then .error () else .ok (st.strs k)

def pSet (flt : Faults) (st : RedisState) (k v : String) :
    Except Unit RedisState :=
  if flt.fSet then .error ()
  else .ok { st with strs := fun x => if x == k then some v else st.strs x }

def pDel (flt : Faults) (st : RedisState) (k : String) :
    Except Unit RedisState :=
  if flt.fDel then .error ()
  else .ok { strs := fun x => if x == k then none else st.strs x
             hshs := fun x => if x == k then [] else st.hshs x
             docs := fun x => if x == k then none else st.docs x
             ttls := fun x => if x == k then none else st.ttls x }

def pExpire (flt : Faults) (st : RedisState) (k : String) (t : Int) :
    Except Unit RedisState :=
  if flt.fExpire then .error ()
  else if st.keyExists k then
    .ok { st with ttls := fun x => if x == k then some t else st.ttls x }
  else .ok st

def pHGet (flt : Faults) (st : RedisState) (k f : String) :
    Except Unit (Option String) :=
  if flt.fHGet then .error ()
  else .ok ((st.hshs k).lookup f)

def pHSet (flt : Faults) (st : RedisState) (k : String)
    (m : List (String × String)) : Except Unit RedisState :=
  -- Redis rejects an `HSET` with no field/value pairs ("wrong number of
  -- arguments"), which the driver surfaces as a rejected promise.
  if flt.fHSet || m.isEmpty then .error ()
  else .ok { st with hshs := fun x => if x == k then hMerge (st.hshs x) m else st.hshs x }

def pHDel (flt : Faults) (st : RedisState) (k : String) (fs : List String) :
    Except Unit RedisState :=
  if flt.fHDel then .error ()
  else .ok { st with
             hshs := fun x =>
               if x == k then (st.hshs x).filter (fun p => !(fs.contains p.1))
               else st.hshs x }

def pHGetAll (flt : Faults) (st : RedisState) (k : String) :
    Except Unit (List (String × String)) :=
  if flt.fHGetAll then .error () else .ok (st.hshs k)

/-- Raw result of a `json.get` against the store (no fault): the document
at `k` read through the requested path, `none` on an absent key. -/
def rawJsonRead (st : RedisState) (k : String) (path : Option String) :
    Option RJson :=
  match st.docs k with
  | none => none
  | some d =>
    match path with
    | none => some d
    | some p => pathRead d p

def pJsonGet (flt : Faults) (st : RedisState) (k : String)
    (path : Option String) : Except Unit (Option RJson) :=
  if flt.fJsonGet then .error ()
  else .ok (rawJsonRead st k path)

def pJsonSet (flt : Faults) (st : RedisState) (k p : String) (v : RJson) :
    Except Unit RedisState :=
  if flt.fJsonSet then .error ()
  else if p == "$" then
    .ok { st with docs := fun x => if x == k then some v else st.docs x }
  else
    match p.data with
    | '$' :: '.' :: rest =>
      match st.docs k with
      | some (.obj fs) =>
        .ok { st with docs := fun x =>
                if x == k then some (.obj (setField fs (String.mk rest) v)) else st.docs x }
      | _ => .error ()  -- RedisJSON: new values under a path need an existing document
    | _ => .error ()

/-! ## Option records of the public operations -/

structure SetOptions where
  ttl : Option Int

structure GetOptions where
  ttl : Option Int
  resetIfNotFound : Option Bool
  bypassFallbackIfNotFound : Option Bool

structure JsonSetOptions where
  ttl : Option Int

structure JsonGetOptions where
  path : Option String

structure CustomJsonGetOptions where
  ttl : Option Int
  resetIfNotFound : Option Bool

/-! Destructuring of the optional option records, with the source's
defaults (`const { ttl, resetIfNotFound = true, ... } = options ?? {}`). -/

def ttlOfSetOptions : Option SetOptions → Option Int
  | some o => o.ttl
  | none => none

def ttlOfGetOptions : Option GetOptions → Option Int
  | some o => o.ttl
  | none => none

def resetOfGetOptions : Option GetOptions → Bool
  | some o => o.resetIfNotFound.getD true
  | none => true

def bypassOfGetOptions : Option GetOptions → Bool
  | some o => o.bypassFallbackIfNotFound.getD false
  | none => false

def pathOfJsonGetOptions : Option JsonGetOptions → Option String
  | some o => o.path
  | none => none

def ttlOfCustomJsonGetOptions : Option CustomJsonGetOptions → Option Int
  | some o => o.ttl
  | none => none

def resetOfCustomJsonGetOptions : Option CustomJsonGetOptions → Bool
  | some o => o.resetIfNotFound.getD true
  | none => true

def ttlOfJsonSetOptions : Option JsonSetOptions → Option Int
  | some o => o.ttl
  | none => none

/-- Port of the private availability gate `isRedisInitialized` (a non-null
check on the client reference). -/
def RedisService.isRedisInitialized (redis : Option Unit) : Bool :=
  redis.isSome

/-! ## Public operations of `RedisService` -/

/-- `RedisService.hSet(key, value, ttl?)`. -/
def RedisService.hSet (client : Option Unit) (flt : Faults) (st : RedisState)
    (key : String) (value : List (String × String)) (ttl : Option Int) :
    OpRes Bool :=
  if !(RedisService.isRedisInitialized client) then
    ⟨.ok false, st, [], 0, 0⟩
  else
    match pHSet flt st key value with
    | .error _ => ⟨.ok false, st, [Call.hSet key value], 0, 1⟩
    | .ok st1 =>
      if jsTruthyNum ttl then
        match pExpire flt st1 key (ttl.getD 0) with
        | .error _ =>
          ⟨.ok false, st1, [Call.hSet key value, Call.expire key (ttl.getD 0)], 0, 1⟩
        | .ok st2 =>
          ⟨.ok true, st2, [Call.hSet key value, Call.expire key (ttl.getD 0)], 0, 0⟩
      else ⟨.ok true, st1, [Call.hSet key value], 0, 0⟩

/-- `RedisService.hGet(key, field, fallback, ttl?)`.  Note the source
refreshes expiry (when `ttl` is truthy) before testing the read value, and
its miss return is a plain `return fallback()` (not awaited in the `try`). -/
def RedisService.hGet (client : Option Unit) (flt : Faults) (st : RedisState)
    (key field : String) (fb : Except String (Option String))
    (ttl : Option Int) : OpRes (Option String) :=
  if !(RedisService.isRedisInitialized client) then
    ⟨fb, st, [], 1, 0⟩
  else
    match pHGet flt st key field with
    | .error _ => ⟨fb, st, [Call.hGet key field], 1, 1⟩
    | .ok value =>
      if jsTruthyNum ttl then
        match pExpire flt st key (ttl.getD 0) with
        | .error _ =>
          ⟨fb, st, [Call.hGet key field, Call.expire key (ttl.getD 0)], 1, 1⟩
        | .ok st1 =>
          if jsTruthyStr value then
            ⟨.ok value, st1, [Call.hGet key field, Call.expire key (ttl.getD 0)], 0, 0⟩
          else
            ⟨fb, st1, [Call.hGet key field, Call.expire key (ttl.getD 0)], 1, 0⟩
      else
        if jsTruthyStr value then
          ⟨.ok value, st, [Call.hGet key field], 0, 0⟩
        else
          ⟨fb, st, [Call.hGet key field], 1, 0⟩

/-- `RedisService.hGetAll(key, fallback, ttl?)`. -/
def RedisService.hGetAll (client : Option Unit) (flt : Faults)
    (st : RedisState) (key : String)
    (fb : Except String (List (String × String))) (ttl : Option Int) :
    OpRes (List (String × String)) :=
  if !(RedisService.isRedisInitialized client) then
    ⟨fb, st, [], 1, 0⟩
  else
    match pHGetAll flt st key with
    | .error _ => ⟨fb, st, [Call.hGetAll key], 1, 1⟩
    | .ok result =>
      if !result.isEmpty && jsTruthyNum ttl && ttl.getD 0 > 0 then
        match pExpire flt st key (ttl.getD 0) with
        | .error _ =>
          ⟨fb, st, [Call.hGetAll key, Call.expire key (ttl.getD 0)], 1, 1⟩
        | .ok st1 =>
          if !result.isEmpty then
            ⟨.ok result, st1, [Call.hGetAll key, Call.expire key (ttl.getD 0)], 0, 0⟩
          else
            ⟨fb, st1, [Call.hGetAll key, Call.expire key (ttl.getD 0)], 1, 0⟩
      else
        if !result.isEmpty then
          ⟨.ok result, st, [Call.hGetAll key], 0, 0⟩
        else
          ⟨fb, st, [Call.hGetAll key], 1, 0⟩

/-- `RedisService.hDel(key, field)`.  The availability gate returns `false`. -/
def RedisService.hDel (client : Option Unit) (flt : Faults) (st : RedisState)
    (key : String) (fields : List String) : OpRes Bool :=
  if !(RedisService.isRedisInitialized client) then
    ⟨.ok false, st, [], 0, 0⟩
  else
    match pHDel flt st key fields with
    | .error _ => ⟨.ok false, st, [Call.hDel key fields], 0, 1⟩
    | .ok st1 => ⟨.ok true, st1, [Call.hDel key fields], 0, 0⟩

/-- `RedisService.jsonSet(key, path, value, {ttl?})`. -/
def RedisService.jsonSet (client : Option Unit) (flt : Faults)
    (st : RedisState) (key path : String) (value : RJson)
    (options : Option JsonSetOptions) : OpRes Bool :=
  if !(RedisService.isRedisInitialized client) then
    ⟨.ok false, st, [], 0, 0⟩
  else
    let ttl : Option Int := ttlOfJsonSetOptions options
    match pJsonSet flt st key path value with
    | .error _ => ⟨.ok false, st, [Call.jsonSet key path value], 0, 1⟩
    | .ok st1 =>
      if jsTruthyNum ttl then
        match pExpire flt st1 key (ttl.getD 0) with
        | .error _ =>
          ⟨.ok false, st1, [Call.jsonSet key path value, Call.expire key (ttl.getD 0)], 0, 1⟩
        | .ok st2 =>
          ⟨.ok true, st2, [Call.jsonSet key path value, Call.expire key (ttl.getD 0)], 0, 0⟩
      else ⟨.ok true, st1, [Call.jsonSet key path value], 0, 0⟩

/-- `RedisService.jsonGet(key, fallback, options?, customOptions?)`.  The
miss-with-population branch `await`s the fallback inside the `try`, so a
fallback rejection there is caught and the `catch` invokes the fallback a
second time; the final `return result ? result : fallback()` is not awaited,
so a rejection there reaches the caller directly. -/
def RedisService.jsonGet (client : Option Unit) (flt : Faults)
    (st : RedisState) (key : String) (fb : Except String RJson)
    (options : Option JsonGetOptions)
    (customOptions : Option CustomJsonGetOptions) : OpRes RJson :=
  if !(RedisService.isRedisInitialized client) then
    ⟨fb, st, [], 1, 0⟩
  else
    let path : Option String := pathOfJsonGetOptions options
    let ttl : Option Int := ttlOfCustomJsonGetOptions customOptions
    let reset : Bool := resetOfCustomJsonGetOptions customOptions
    match pJsonGet flt st key path with
    | .error _ => ⟨fb, st, [Call.jsonGet key path], 1, 1⟩
    | .ok result =>
      if !jsTruthyJsonOpt result && reset then
        match fb with
        | .error e =>
          -- `await fallback()` rejected inside the `try`: caught, and the
          -- `catch` runs `return fallback()`, whose rejection propagates.
          ⟨.error e, st, [Call.jsonGet key path], 2, 0⟩
        | .ok dataToCache =>
          let s := RedisService.jsonSet (some ()) flt st key "$" dataToCache
            (some ⟨ttl⟩)
          ⟨.ok dataToCache, s.st, Call.jsonGet key path :: s.calls, 1, s.storeErrs⟩
      else
        if jsTruthyJsonOpt result && jsTruthyNum ttl && ttl.getD 0 > 0 then
          match pExpire flt st key (ttl.getD 0) with
          | .error _ =>
            ⟨fb, st, [Call.jsonGet key path, Call.expire key (ttl.getD 0)], 1, 1⟩
          | .ok st1 =>
            match result with
            | some j =>
              if jsTruthyJson j then
                ⟨.ok j, st1, [Call.jsonGet key path, Call.expire key (ttl.getD 0)], 0, 0⟩
              else
                ⟨fb, st1, [Call.jsonGet key path, Call.expire key (ttl.getD 0)], 1, 0⟩
            | none =>
              ⟨fb, st1, [Call.jsonGet key path, Call.expire key (ttl.getD 0)], 1, 0⟩
        else
          match result with
          | some j =>
            if jsTruthyJson j then
              ⟨.ok j, st, [Call.jsonGet key path], 0, 0⟩
            else
              ⟨fb, st, [Call.jsonGet key path], 1, 0⟩
          | none =>
            ⟨fb, st, [Call.jsonGet key path], 1, 0⟩

/-- `RedisService.set(key, value, {ttl?})`.  The TTL guard is
`isDefined(ttl)`, so a TTL of `0` still issues `expire(key, 0)`. -/
def RedisService.set (client : Option Unit) (flt : Faults) (st : RedisState)
    (key value : String) (options : Option SetOptions) : OpRes Bool :=
  if !(RedisService.isRedisInitialized client) then
    ⟨.ok false, st, [], 0, 0⟩
  else
    let ttl : Option Int := ttlOfSetOptions options
    match pSet flt st key value with
    | .error _ => ⟨.ok false, st, [Call.set key value], 0, 1⟩
    | .ok st1 =>
      if isDefined ttl then
        match pExpire flt st1 key (ttl.getD 0) with
        | .error _ =>
          ⟨.ok false, st1, [Call.set key value, Call.expire key (ttl.getD 0)], 0, 1⟩
        | .ok st2 =>
          ⟨.ok true, st2, [Call.set key value, Call.expire key (ttl.getD 0)], 0, 0⟩
      else ⟨.ok true, st1, [Call.set key value], 0, 0⟩

/-- `RedisService.get(key, fallback, customOptions?)`.  The hit path issues
no `expire`; the `ttl` option is only forwarded to the write-back `set` of
the miss-with-population branch.  That branch `await`s the fallback inside
the `try` (rejection caught, fallback re-invoked in the `catch`); the final
`return result ? result : fallback()` is not awaited. -/
def RedisService.get (client : Option Unit) (flt : Faults) (st : RedisState)
    (key : String) (fb : Except String (Option String))
    (customOptions : Option GetOptions) : OpRes (Option String) :=
  if !(RedisService.isRedisInitialized client) then
    ⟨fb, st, [], 1, 0⟩
  else
    let ttl : Option Int := ttlOfGetOptions customOptions
    let reset : Bool := resetOfGetOptions customOptions
    let bypass : Bool := bypassOfGetOptions customOptions
    match pGet flt st key with
    | .error _ => ⟨fb, st, [Call.get key], 1, 1⟩
    | .ok result =>
      if !jsTruthyStr result && reset then
        match fb with
        | .error e =>
          -- `await fallback()` rejected inside the `try`: caught, and the
          -- `catch` runs `return fallback()`, whose rejection propagates.
          ⟨.error e, st, [Call.get key], 2, 0⟩
        | .ok dataToCache =>
          if jsTruthyStr dataToCache then
            let s := RedisService.set (some ()) flt st key (dataToCache.getD "")
              (some ⟨ttl⟩)
            ⟨.ok dataToCache, s.st, Call.get key :: s.calls, 1, s.storeErrs⟩
          else
            ⟨.ok dataToCache, st, [Call.get key], 1, 0⟩
      else
        if bypass then
          ⟨.ok result, st, [Call.get key], 0, 0⟩
        else
          if jsTruthyStr result then
            ⟨.ok result, st, [Call.get key], 0, 0⟩
          else
            ⟨fb, st, [Call.get key], 1, 0⟩

/-- `RedisService.del(key)`.  The availability gate returns `true`. -/
def RedisService.del (client : Option Unit) (flt : Faults) (st : RedisState)
    (key : String) : OpRes Bool :=
  if !(RedisService.isRedisInitialized client) then
    ⟨.ok true, st, [], 0, 0⟩
  else
    match pDel flt st key with
    | .error _ => ⟨.ok false, st, [Call.del key], 0, 1⟩
    | .ok st1 => ⟨.ok true, st1, [Call.del key], 0, 0⟩

/-! ## Concrete fixtures for witnesses and counterexamples -/

/-- The empty store. -/
def st0 : RedisState :=
  ⟨fun _ => none, fun _ => [], fun _ => none, fun _ => none⟩

/-- No fault injected: every store primitive succeeds. -/
def noFaults : Faults :=
  ⟨false, false, false, false, false, false, false, false, false, false⟩

/-- Store holding the single scalar entry `"k" -> "v"`. -/
def stKV : RedisState :=
  { st0 with strs := fun x => if x == "k" then some "v" else none }

/-- Store holding the single JSON document `{"b": 2}` at key `"doc"`. -/
def stDoc : RedisState :=
  { st0 with docs := fun x =>
      if x == "doc" then some (RJson.obj [("b", RJson.num 2)]) else none }

/-- Fault injection making only the `del` primitive throw. -/
def fltDel : Faults :=
  ⟨false, false, true, false, false, false, false, false, false, false⟩

/-- Fault injection making only the `set` primitive throw. -/
def fltSet : Faults :=
  ⟨false, true, false, false, false, false, false, false, false, false⟩

/-! ## Helper lemmas about the primitives and the operations -/

theorem pExpire_ok_shapes {flt : Faults} {st : RedisState} {k : String}
    {t : Int} {st' : RedisState} (h : pExpire flt st k t = Except.ok st') :
    st'.strs = st.strs ∧ st'.hshs = st.hshs ∧ st'.docs = st.docs := by
  unfold pExpire at h
  split at h
  · exact absurd h (by simp)
  · split at h
    · injection h with h
      subst h
      exact ⟨rfl, rfl, rfl⟩
    · injection h with h
      subst h
      exact ⟨rfl, rfl, rfl⟩

theorem pSet_ok_strs {flt : Faults} {st : RedisState} {k v : String}
    {st' : RedisState} (h : pSet flt st k v = Except.ok st') :
    st'.strs k = some v := by
  unfold pSet at h
  split at h
  · exact absurd h (by simp)
  · injection h with h
    subst h
    simp

theorem pHSet_ok_hshs {flt : Faults} {st : RedisState} {k : String}
    {m : List (String × String)} {st' : RedisState}
    (h : pHSet flt st k m = Except.ok st') : st'.hshs k ≠ [] := by
  unfold pHSet at h
  split at h
  next hc => exact absurd h (by simp)
  next hc =>
    injection h with h
    subst h
    simp only [Bool.or_eq_true, not_or, Bool.not_eq_true] at hc
    show (if (k == k) = true then hMerge (st.hshs k) m else st.hshs k) ≠ []
    rw [if_pos (by simp)]
    unfold hMerge
    intro hnil
    rcases List.append_eq_nil.mp hnil with ⟨-, hm⟩
    rw [hm] at hc
    simp at hc

theorem pJsonSet_ok_docs {flt : Faults} {st : RedisState} {k p : String}
    {v : RJson} {st' : RedisState} (h : pJsonSet flt st k p v = Except.ok st') :
    (st'.docs k).isSome = true := by
  unfold pJsonSet at h
  split at h
  · exact absurd h (by simp)
  · split at h
    · injection h with h
      subst h
      simp
    · split at h
      · split at h
        · injection h with h
          subst h
          simp
        · exact absurd h (by simp)
      · exact absurd h (by simp)

theorem pHGetAll_ok {flt : Faults} {st : RedisState} {k : String}
    {result : List (String × String)} (h : pHGetAll flt st k = Except.ok result) :
    result = st.hshs k := by
  unfold pHGetAll at h
  split at h
  · exact absurd h (by simp)
  · injection h with h
    exact h.symm

theorem pJsonGet_ok {flt : Faults} {st : RedisState} {k : String}
    {path : Option String} {result : Option RJson}
    (h : pJsonGet flt st k path = Except.ok result) :
    result = rawJsonRead st k path := by
  unfold pJsonGet at h
  split at h
  · exact absurd h (by simp)
  · injection h with h
    exact h.symm

theorem rawJsonRead_truthy_docs {st : RedisState} {k : String}
    {path : Option String} (h : jsTruthyJsonOpt (rawJsonRead st k path) = true) :
    (st.docs k).isSome = true := by
  unfold rawJsonRead at h
  rcases hd : st.docs k with _ | d
  · rw [hd] at h
    simp [jsTruthyJsonOpt] at h
  · simp

theorem set_expire_present (flt : Faults) (st : RedisState) (key value : String)
    (opts : Option SetOptions) (t : Int)
    (h : Call.expire key t ∈ (RedisService.set (some ()) flt st key value opts).calls) :
    (((RedisService.set (some ()) flt st key value opts).st).strs key).isSome = true := by
  rcases hps : pSet flt st key value with e | st1
  · simp [RedisService.set, RedisService.isRedisInitialized, hps] at h
  · rcases httl : ttlOfSetOptions opts with _ | t0
    · simp [RedisService.set, RedisService.isRedisInitialized, hps, httl, isDefined] at h
    · rcases hpe : pExpire flt st1 key t0 with e | st2
      · simp [RedisService.set, RedisService.isRedisInitialized, hps, httl,
          isDefined, hpe, pSet_ok_strs hps]
      · simp [RedisService.set, RedisService.isRedisInitialized, hps, httl,
          isDefined, hpe, (pExpire_ok_shapes hpe).1, pSet_ok_strs hps]

theorem hSet_expire_present (flt : Faults) (st : RedisState) (key : String)
    (m : List (String × String)) (ttl : Option Int) (t : Int)
    (h : Call.expire key t ∈ (RedisService.hSet (some ()) flt st key m ttl).calls) :
    ((RedisService.hSet (some ()) flt st key m ttl).st).hshs key ≠ [] := by
  rcases hps : pHSet flt st key m with e | st1
  · simp [RedisService.hSet, RedisService.isRedisInitialized, hps] at h
  · by_cases htt : jsTruthyNum ttl = true
    · rcases hpe : pExpire flt st1 key (ttl.getD 0) with e | st2
      · simp [RedisService.hSet, RedisService.isRedisInitialized, hps, htt, hpe,
          pHSet_ok_hshs hps]
      · simp [RedisService.hSet, RedisService.isRedisInitialized, hps, htt, hpe,
          (pExpire_ok_shapes hpe).2.1, pHSet_ok_hshs hps]
    · simp [RedisService.hSet, RedisService.isRedisInitialized, hps, htt] at h

theorem jsonSet_expire_present (flt : Faults) (st : RedisState) (key path : String)
    (v : RJson) (opts : Option JsonSetOptions) (t : Int)
    (h : Call.expire key t ∈ (RedisService.jsonSet (some ()) flt st key path v opts).calls) :
    (((RedisService.jsonSet (some ()) flt st key path v opts).st).docs key).isSome = true := by
  rcases hps : pJsonSet flt st key path v with e | st1
  · simp [RedisService.jsonSet, RedisService.isRedisInitialized, hps] at h
  · by_cases htt : jsTruthyNum (ttlOfJsonSetOptions opts) = true
    · rcases hpe : pExpire flt st1 key ((ttlOfJsonSetOptions opts).getD 0) with e | st2
      · simp [RedisService.jsonSet, RedisService.isRedisInitialized, hps, htt, hpe,
          pJsonSet_ok_docs hps]
      · simp [RedisService.jsonSet, RedisService.isRedisInitialized, hps, htt, hpe,
          (pExpire_ok_shapes hpe).2.2, pJsonSet_ok_docs hps]
    · simp [RedisService.jsonSet, RedisService.isRedisInitialized, hps, htt] at h

theorem hGetAll_expire_nonempty (flt : Faults) (st : RedisState) (key : String)
    (fb : Except String (List (String × String))) (ttl : Option Int) (t : Int)
    (h : Call.expire key t ∈ (RedisService.hGetAll (some ()) flt st key fb ttl).calls) :
    ((RedisService.hGetAll (some ()) flt st key fb ttl).st).hshs key ≠ [] := by
  rcases hpg : pHGetAll flt st key with e | result
  · simp [RedisService.hGetAll, RedisService.isRedisInitialized, hpg] at h
  · have hres := pHGetAll_ok hpg
    by_cases hre : result.isEmpty = true
    · simp [RedisService.hGetAll, RedisService.isRedisInitialized, hpg, hre] at h
    · by_cases htt : jsTruthyNum ttl = true
      · by_cases hpos : 0 < ttl.getD 0
        · have hne : st.hshs key ≠ [] := by
            rw [← hres]
            simpa [List.isEmpty_iff] using hre
          rcases hpe : pExpire flt st key (ttl.getD 0) with e | st1
          · simp [RedisService.hGetAll, RedisService.isRedisInitialized, hpg, hre, htt,
              hpos, hpe, hne]
          · simp [RedisService.hGetAll, RedisService.isRedisInitialized, hpg, hre, htt,
              hpos, hpe, (pExpire_ok_shapes hpe).2.1, hne]
        · simp [RedisService.hGetAll, RedisService.isRedisInitialized, hpg, hre, htt,
            hpos] at h
      · simp [RedisService.hGetAll, RedisService.isRedisInitialized, hpg, hre, htt] at h

theorem get_expire_present (flt : Faults) (st : RedisState) (key : String)
    (fb : Except String (Option String)) (copts : Option GetOptions) (t : Int)
    (h : Call.expire key t ∈ (RedisService.get (some ()) flt st key fb copts).calls) :
    (((RedisService.get (some ()) flt st key fb copts).st).strs key).isSome = true := by
  rcases hpg : pGet flt st key with e | result
  · simp [RedisService.get, RedisService.isRedisInitialized, hpg] at h
  · cases hjt : jsTruthyStr result with
    | true =>
      cases hb : bypassOfGetOptions copts with
      | true => simp [RedisService.get, RedisService.isRedisInitialized, hpg, hjt, hb] at h
      | false => simp [RedisService.get, RedisService.isRedisInitialized, hpg, hjt, hb] at h
    | false =>
      cases hrs : resetOfGetOptions copts with
      | false =>
        cases hb : bypassOfGetOptions copts with
        | true =>
          simp [RedisService.get, RedisService.isRedisInitialized, hpg, hjt, hrs, hb] at h
        | false =>
          simp [RedisService.get, RedisService.isRedisInitialized, hpg, hjt, hrs, hb] at h
      | true =>
        rcases fb with e | dataToCache
        · simp [RedisService.get, RedisService.isRedisInitialized, hpg, hjt, hrs] at h
        · cases hdt : jsTruthyStr dataToCache with
          | false =>
            simp [RedisService.get, RedisService.isRedisInitialized, hpg, hjt, hrs, hdt] at h
          | true =>
            have h' : Call.expire key t ∈ (RedisService.set (some ()) flt st key
                (dataToCache.getD "") (some ⟨ttlOfGetOptions copts⟩)).calls := by
              simpa [RedisService.get, RedisService.isRedisInitialized, hpg, hjt, hrs, hdt]
                using h
            have hp := set_expire_present flt st key (dataToCache.getD "")
              (some ⟨ttlOfGetOptions copts⟩) t h'
            simpa [RedisService.get, RedisService.isRedisInitialized, hpg, hjt, hrs, hdt]
              using hp

theorem jsonGet_expire_present (flt : Faults) (st : RedisState) (key : String)
    (fb : Except String RJson) (opts : Option JsonGetOptions)
    (copts : Option CustomJsonGetOptions) (t : Int)
    (h : Call.expire key t ∈ (RedisService.jsonGet (some ()) flt st key fb opts copts).calls) :
    (((RedisService.jsonGet (some ()) flt st key fb opts copts).st).docs key).isSome = true := by
  rcases hpg : pJsonGet flt st key (pathOfJsonGetOptions opts) with e | result
  · simp [RedisService.jsonGet, RedisService.isRedisInitialized, hpg] at h
  · cases hjt : jsTruthyJsonOpt result with
    | false =>
      cases hrs : resetOfCustomJsonGetOptions copts with
      | true =>
        rcases fb with e | dataToCache
        · simp [RedisService.jsonGet, RedisService.isRedisInitialized, hpg, hjt, hrs] at h
        · have h' : Call.expire key t ∈ (RedisService.jsonSet (some ()) flt st key "$"
              dataToCache (some ⟨ttlOfCustomJsonGetOptions copts⟩)).calls := by
            simpa [RedisService.jsonGet, RedisService.isRedisInitialized, hpg, hjt, hrs]
              using h
          have hp := jsonSet_expire_present flt st key "$" dataToCache
            (some ⟨ttlOfCustomJsonGetOptions copts⟩) t h'
          simpa [RedisService.jsonGet, RedisService.isRedisInitialized, hpg, hjt, hrs]
            using hp
      | false =>
        rcases result with _ | j
        · simp [RedisService.jsonGet, RedisService.isRedisInitialized, hpg, hjt, hrs] at h
        · simp [RedisService.jsonGet, RedisService.isRedisInitialized, hpg, hrs,
            jsTruthyJsonOpt] at hjt ⊢
          simp [RedisService.jsonGet, RedisService.isRedisInitialized, hpg, hrs,
            jsTruthyJsonOpt, hjt] at h
    | true =>
      rcases result with _ | j
      · simp [jsTruthyJsonOpt] at hjt
      · have hdocs : (st.docs key).isSome = true :=
          rawJsonRead_truthy_docs (by rw [← pJsonGet_ok hpg]; exact hjt)
        have hjj : jsTruthyJson j = true := by simpa [jsTruthyJsonOpt] using hjt
        cases htt : jsTruthyNum (ttlOfCustomJsonGetOptions copts) with
        | false =>
          simp [RedisService.jsonGet, RedisService.isRedisInitialized, hpg, hjt, hjj,
            htt] at h
        | true =>
          by_cases hpos : 0 < (ttlOfCustomJsonGetOptions copts).getD 0
          · rcases hpe : pExpire flt st key ((ttlOfCustomJsonGetOptions copts).getD 0)
              with e | st1
            · simp [RedisService.jsonGet, RedisService.isRedisInitialized, hpg, hjt, hjj,
                htt, hpos, hpe, hdocs]
            · simp [RedisService.jsonGet, RedisService.isRedisInitialized, hpg, hjt, hjj,
                htt, hpos, hpe, (pExpire_ok_shapes hpe).2.2, hdocs]
          · simp [RedisService.jsonGet, RedisService.isRedisInitialized, hpg, hjt, hjj,
              htt, hpos] at h

theorem hGet_expire_iff (flt : Faults) (st : RedisState) (key field : String)
    (fb : Except String (Option String)) (ttl : Option Int) (t : Int)
    (hflt : flt.fHGet = false) :
    Call.expire key t ∈ (RedisService.hGet (some ()) flt st key field fb ttl).calls
      ↔ (ttl = some t ∧ t ≠ 0) := by
  rcases httl : ttl with _ | t0
  · by_cases hv : jsTruthyStr ((st.hshs key).lookup field) = true <;>
      simp [RedisService.hGet, RedisService.isRedisInitialized, pHGet, hflt, hv, jsTruthyNum]
  · by_cases ht0 : t0 = 0
    · subst ht0
      by_cases hv : jsTruthyStr ((st.hshs key).lookup field) = true <;>
        · simp [RedisService.hGet, RedisService.isRedisInitialized, pHGet, hflt, hv,
            jsTruthyNum]
          omega
    · have htt : jsTruthyNum (some t0) = true := by simp [jsTruthyNum, ht0]
      rcases hpe : pExpire flt st key t0 with e | st1
      · simp [RedisService.hGet, RedisService.isRedisInitialized, pHGet, hflt, htt, hpe,
          ht0]
        constructor
        · intro h
          exact ⟨h.symm, by rw [h]; exact ht0⟩
        · intro ⟨h1, _⟩
          exact h1.symm
      · by_cases hv : jsTruthyStr ((st.hshs key).lookup field) = true <;>
          · simp [RedisService.hGet, RedisService.isRedisInitialized, pHGet, hflt, htt,
              hpe, hv, ht0]
            constructor
            · intro h
              exact ⟨h.symm, by rw [h]; exact ht0⟩
            · intro ⟨h1, _⟩
              exact h1.symm

theorem set_storeErr_ret (flt : Faults) (st : RedisState) (key value : String)
    (opts : Option SetOptions)
    (h : (RedisService.set (some ()) flt st key value opts).storeErrs > 0) :
    (RedisService.set (some ()) flt st key value opts).ret = Except.ok false := by
  rcases hps : pSet flt st key value with e | st1
  · simp [RedisService.set, RedisService.isRedisInitialized, hps]
  · cases hd : isDefined (ttlOfSetOptions opts) with
    | false => simp [RedisService.set, RedisService.isRedisInitialized, hps, hd] at h
    | true =>
      rcases hpe : pExpire flt st1 key ((ttlOfSetOptions opts).getD 0) with e | st2
      · simp [RedisService.set, RedisService.isRedisInitialized, hps, hd, hpe]
      · simp [RedisService.set, RedisService.isRedisInitialized, hps, hd, hpe] at h

theorem hSet_storeErr_ret (flt : Faults) (st : RedisState) (key : String)
    (value : List (String × String)) (ttl : Option Int)
    (h : (RedisService.hSet (some ()) flt st key value ttl).storeErrs > 0) :
    (RedisService.hSet (some ()) flt st key value ttl).ret = Except.ok false := by
  rcases hps : pHSet flt st key value with e | st1
  · simp [RedisService.hSet, RedisService.isRedisInitialized, hps]
  · cases htt : jsTruthyNum ttl with
    | false => simp [RedisService.hSet, RedisService.isRedisInitialized, hps, htt] at h
    | true =>
      rcases hpe : pExpire flt st1 key (ttl.getD 0) with e | st2
      · simp [RedisService.hSet, RedisService.isRedisInitialized, hps, htt, hpe]
      · simp [RedisService.hSet, RedisService.isRedisInitialized, hps, htt, hpe] at h

theorem jsonSet_storeErr_ret (flt : Faults) (st : RedisState) (key path : String)
    (value : RJson) (opts : Option JsonSetOptions)
    (h : (RedisService.jsonSet (some ()) flt st key path value opts).storeErrs > 0) :
    (RedisService.jsonSet (some ()) flt st key path value opts).ret = Except.ok false := by
  rcases hps : pJsonSet flt st key path value with e | st1
  · simp [RedisService.jsonSet, RedisService.isRedisInitialized, hps]
  · cases htt : jsTruthyNum (ttlOfJsonSetOptions opts) with
    | false => simp [RedisService.jsonSet, RedisService.isRedisInitialized, hps, htt] at h
    | true =>
      rcases hpe : pExpire flt st1 key ((ttlOfJsonSetOptions opts).getD 0) with e | st2
      · simp [RedisService.jsonSet, RedisService.isRedisInitialized, hps, htt, hpe]
      · simp [RedisService.jsonSet, RedisService.isRedisInitialized, hps, htt, hpe] at h

theorem hDel_storeErr_ret (flt : Faults) (st : RedisState) (key : String) (fields : List String)
    (h : (RedisService.hDel (some ()) flt st key fields).storeErrs > 0) :
    (RedisService.hDel (some ()) flt st key fields).ret = Except.ok false := by
  rcases hps : pHDel flt st key fields with e | st1
  · simp [RedisService.hDel, RedisService.isRedisInitialized, hps]
  · simp [RedisService.hDel, RedisService.isRedisInitialized, hps] at h

theorem del_storeErr_ret (flt : Faults) (st : RedisState) (key : String)
    (h : (RedisService.del (some ()) flt st key).storeErrs > 0) :
    (RedisService.del (some ()) flt st key).ret = Except.ok false := by
  rcases hps : pDel flt st key with e | st1
  · simp [RedisService.del, RedisService.isRedisInitialized, hps]
  · simp [RedisService.del, RedisService.isRedisInitialized, hps] at h

theorem get_storeErr_ret (flt : Faults) (st : RedisState) (key : String) (v : Option String)
    (copts : Option GetOptions)
    (h : (RedisService.get (some ()) flt st key (Except.ok v) copts).storeErrs > 0) :
    (RedisService.get (some ()) flt st key (Except.ok v) copts).ret = Except.ok v := by
  rcases hpg : pGet flt st key with e | result
  · simp [RedisService.get, RedisService.isRedisInitialized, hpg]
  · cases hjt : jsTruthyStr result with
    | true =>
      cases hb : bypassOfGetOptions copts with
      | true => simp [RedisService.get, RedisService.isRedisInitialized, hpg, hjt, hb] at h
      | false => simp [RedisService.get, RedisService.isRedisInitialized, hpg, hjt, hb] at h
    | false =>
      cases hrs : resetOfGetOptions copts with
      | true =>
        cases hdt : jsTruthyStr v with
        | true =>
          simp [RedisService.get, RedisService.isRedisInitialized, hpg, hjt, hrs, hdt]
        | false =>
          simp [RedisService.get, RedisService.isRedisInitialized, hpg, hjt, hrs, hdt]
      | false =>
        cases hb : bypassOfGetOptions copts with
        | true =>
          simp [RedisService.get, RedisService.isRedisInitialized, hpg, hjt, hrs, hb] at h
        | false =>
          simp [RedisService.get, RedisService.isRedisInitialized, hpg, hjt, hrs, hb]

theorem hGet_storeErr_ret (flt : Faults) (st : RedisState) (key field : String)
    (v : Option String) (ttl : Option Int)
    (h : (RedisService.hGet (some ()) flt st key field (Except.ok v) ttl).storeErrs > 0) :
    (RedisService.hGet (some ()) flt st key field (Except.ok v) ttl).ret = Except.ok v := by
  rcases hpv : pHGet flt st key field with e | value
  · simp [RedisService.hGet, RedisService.isRedisInitialized, hpv]
  · cases htt : jsTruthyNum ttl with
    | false =>
      cases hv : jsTruthyStr value <;>
        simp [RedisService.hGet, RedisService.isRedisInitialized, hpv, htt, hv] at h
    | true =>
      rcases hpe : pExpire flt st key (ttl.getD 0) with e | st1
      · simp [RedisService.hGet, RedisService.isRedisInitialized, hpv, htt, hpe]
      · cases hv : jsTruthyStr value <;>
          simp [RedisService.hGet, RedisService.isRedisInitialized, hpv, htt, hpe, hv] at h

theorem hGetAll_storeErr_ret (flt : Faults) (st : RedisState) (key : String)
    (v : List (String × String)) (ttl : Option Int)
    (h : (RedisService.hGetAll (some ()) flt st key (Except.ok v) ttl).storeErrs > 0) :
    (RedisService.hGetAll (some ()) flt st key (Except.ok v) ttl).ret = Except.ok v := by
  rcases hpg : pHGetAll flt st key with e | result
  · simp [RedisService.hGetAll, RedisService.isRedisInitialized, hpg]
  · by_cases hre : result.isEmpty = true
    · simp [RedisService.hGetAll, RedisService.isRedisInitialized, hpg, hre] at h
    · cases htt : jsTruthyNum ttl with
      | false =>
        simp [RedisService.hGetAll, RedisService.isRedisInitialized, hpg, hre, htt] at h
      | true =>
        by_cases hpos : 0 < ttl.getD 0
        · rcases hpe : pExpire flt st key (ttl.getD 0) with e | st1
          · simp [RedisService.hGetAll, RedisService.isRedisInitialized, hpg, hre, htt,
              hpos, hpe]
          · simp [RedisService.hGetAll, RedisService.isRedisInitialized, hpg, hre, htt,
              hpos, hpe] at h
        · simp [RedisService.hGetAll, RedisService.isRedisInitialized, hpg, hre, htt,
            hpos] at h

theorem jsonGet_storeErr_ret (flt : Faults) (st : RedisState) (key : String) (d : RJson)
    (opts : Option JsonGetOptions) (copts : Option CustomJsonGetOptions)
    (h : (RedisService.jsonGet (some ()) flt st key (Except.ok d) opts copts).storeErrs > 0) :
    (RedisService.jsonGet (some ()) flt st key (Except.ok d) opts copts).ret = Except.ok d := by
  rcases hpg : pJsonGet flt st key (pathOfJsonGetOptions opts) with e | result
  · simp [RedisService.jsonGet, RedisService.isRedisInitialized, hpg]
  · cases hjt : jsTruthyJsonOpt result with
    | false =>
      cases hrs : resetOfCustomJsonGetOptions copts with
      | true =>
        simp [RedisService.jsonGet, RedisService.isRedisInitialized, hpg, hjt, hrs]
      | false =>
        rcases result with _ | j
        · simp [RedisService.jsonGet, RedisService.isRedisInitialized, hpg, hjt, hrs] at h
        · have hjj : jsTruthyJson j = false := by simpa [jsTruthyJsonOpt] using hjt
          simp [RedisService.jsonGet, RedisService.isRedisInitialized, hpg, hjt, hjj,
            hrs] at h
    | true =>
      rcases result with _ | j
      · simp [jsTruthyJsonOpt] at hjt
      · have hjj : jsTruthyJson j = true := by simpa [jsTruthyJsonOpt] using hjt
        cases htt : jsTruthyNum (ttlOfCustomJsonGetOptions copts) with
        | false =>
          simp [RedisService.jsonGet, RedisService.isRedisInitialized, hpg, hjt, hjj,
            htt] at h
        | true =>
          by_cases hpos : 0 < (ttlOfCustomJsonGetOptions copts).getD 0
          · rcases hpe : pExpire flt st key ((ttlOfCustomJsonGetOptions copts).getD 0)
              with e | st1
            · simp [RedisService.jsonGet, RedisService.isRedisInitialized, hpg, hjt, hjj,
                htt, hpos, hpe]
            · simp [RedisService.jsonGet, RedisService.isRedisInitialized, hpg, hjt, hjj,
                htt, hpos, hpe] at h
          · simp [RedisService.jsonGet, RedisService.isRedisInitialized, hpg, hjt, hjj,
              htt, hpos] at h

theorem get_fbError (client : Option Unit) (flt : Faults) (st : RedisState)
    (key e : String) (copts : Option GetOptions) :
    ((RedisService.get client flt st key (Except.error e) copts).ret = Except.error e ∨
      (RedisService.get client flt st key (Except.error e) copts).fbCalls = 0) ∧
    (RedisService.get client flt st key (Except.error e) copts).fbCalls ≤ 2 := by
  rcases client with _ | u
  · simp [RedisService.get, RedisService.isRedisInitialized]
  · rcases hpg : pGet flt st key with e2 | result
    · simp [RedisService.get, RedisService.isRedisInitialized, hpg]
    · cases hjt : jsTruthyStr result with
      | true =>
        cases hb : bypassOfGetOptions copts <;>
          simp [RedisService.get, RedisService.isRedisInitialized, hpg, hjt, hb]
      | false =>
        cases hrs : resetOfGetOptions copts with
        | true => simp [RedisService.get, RedisService.isRedisInitialized, hpg, hjt, hrs]
        | false =>
          cases hb : bypassOfGetOptions copts <;>
            simp [RedisService.get, RedisService.isRedisInitialized, hpg, hjt, hrs, hb]

theorem hGet_fbError (client : Option Unit) (flt : Faults) (st : RedisState)
    (key field e : String) (ttl : Option Int) :
    ((RedisService.hGet client flt st key field (Except.error e) ttl).ret = Except.error e ∨
      (RedisService.hGet client flt st key field (Except.error e) ttl).fbCalls = 0) ∧
    (RedisService.hGet client flt st key field (Except.error e) ttl).fbCalls ≤ 1 := by
  rcases client with _ | u
  · simp [RedisService.hGet, RedisService.isRedisInitialized]
  · rcases hpv : pHGet flt st key field with e2 | value
    · simp [RedisService.hGet, RedisService.isRedisInitialized, hpv]
    · cases htt : jsTruthyNum ttl with
      | false =>
        cases hv : jsTruthyStr value <;>
          simp [RedisService.hGet, RedisService.isRedisInitialized, hpv, htt, hv]
      | true =>
        rcases hpe : pExpire flt st key (ttl.getD 0) with e2 | st1
        · simp [RedisService.hGet, RedisService.isRedisInitialized, hpv, htt, hpe]
        · cases hv : jsTruthyStr value <;>
            simp [RedisService.hGet, RedisService.isRedisInitialized, hpv, htt, hpe, hv]

theorem hGetAll_fbError (client : Option Unit) (flt : Faults) (st : RedisState)
    (key e : String) (ttl : Option Int) :
    ((RedisService.hGetAll client flt st key (Except.error e) ttl).ret = Except.error e ∨
      (RedisService.hGetAll client flt st key (Except.error e) ttl).fbCalls = 0) ∧
    (RedisService.hGetAll client flt st key (Except.error e) ttl).fbCalls ≤ 1 := by
  rcases client with _ | u
  · simp [RedisService.hGetAll, RedisService.isRedisInitialized]
  · rcases hpg : pHGetAll flt st key with e2 | result
    · simp [RedisService.hGetAll, RedisService.isRedisInitialized, hpg]
    · by_cases hre : result.isEmpty = true
      · simp [RedisService.hGetAll, RedisService.isRedisInitialized, hpg, hre]
      · cases htt : jsTruthyNum ttl with
        | false =>
          simp [RedisService.hGetAll, RedisService.isRedisInitialized, hpg, hre, htt]
        | true =>
          by_cases hpos : 0 < ttl.getD 0
          · rcases hpe : pExpire flt st key (ttl.getD 0) with e2 | st1 <;>
              simp [RedisService.hGetAll, RedisService.isRedisInitialized, hpg, hre, htt,
                hpos, hpe]
          · simp [RedisService.hGetAll, RedisService.isRedisInitialized, hpg, hre, htt,
              hpos]

theorem jsonGet_fbError (client : Option Unit) (flt : Faults) (st : RedisState)
    (key e : String) (opts : Option JsonGetOptions)
    (copts : Option CustomJsonGetOptions) :
    ((RedisService.jsonGet client flt st key (Except.error e) opts copts).ret = Except.error e ∨
      (RedisService.jsonGet client flt st key (Except.error e) opts copts).fbCalls = 0) ∧
    (RedisService.jsonGet client flt st key (Except.error e) opts copts).fbCalls ≤ 2 := by
  rcases client with _ | u
  · simp [RedisService.jsonGet, RedisService.isRedisInitialized]
  · rcases hpg : pJsonGet flt st key (pathOfJsonGetOptions opts) with e2 | result
    · simp [RedisService.jsonGet, RedisService.isRedisInitialized, hpg]
    · cases hjt : jsTruthyJsonOpt result with
      | false =>
        cases hrs : resetOfCustomJsonGetOptions copts with
        | true => simp [RedisService.jsonGet, RedisService.isRedisInitialized, hpg, hjt, hrs]
        | false =>
          rcases result with _ | j
          · simp [RedisService.jsonGet, RedisService.isRedisInitialized, hpg, hjt, hrs]
          · have hjj : jsTruthyJson j = false := by simpa [jsTruthyJsonOpt] using hjt
            simp [RedisService.jsonGet, RedisService.isRedisInitialized, hpg, hjt, hjj, hrs]
      | true =>
        rcases result with _ | j
        · simp [jsTruthyJsonOpt] at hjt
        · have hjj : jsTruthyJson j = true := by simpa [jsTruthyJsonOpt] using hjt
          cases htt : jsTruthyNum (ttlOfCustomJsonGetOptions copts) with
          | false =>
            simp [RedisService.jsonGet, RedisService.isRedisInitialized, hpg, hjt, hjj, htt]
          | true =>
            by_cases hpos : 0 < (ttlOfCustomJsonGetOptions copts).getD 0
            · rcases hpe : pExpire flt st key ((ttlOfCustomJsonGetOptions copts).getD 0)
                with e2 | st1 <;>
                simp [RedisService.jsonGet, RedisService.isRedisInitialized, hpg, hjt, hjj,
                  htt, hpos, hpe]
            · simp [RedisService.jsonGet, RedisService.isRedisInitialized, hpg, hjt, hjj,
                htt, hpos]

/-- C3 (amended): for a key holding a non-empty string `v`, `get` with a TTL
supplied returns `v` without invoking the fallback, but issues no `expire`
call at all — the only store call is the read.  The `ttl` option of `get`
affects only the miss write-back, so there is no sliding expiration on hit. -/
theorem get_hit_returns_without_expire (flt : Faults) (st : RedisState) (key v : String) (t : Int)
    (fb : Except String (Option String)) (hflt : flt.fGet = false)
    (hhit : st.strs key = some v) (hv : v.isEmpty = false) :
    RedisService.get (some ()) flt st key fb (some ⟨some t, none, none⟩) =
      ⟨Except.ok (some v), st, [Call.get key], 0, 0⟩ := by
  simp [RedisService.get, RedisService.isRedisInitialized, pGet, hflt, hhit, jsTruthyStr,
    hv, resetOfGetOptions, bypassOfGetOptions]

/-- C5: on a miss with default options, `get` invokes the fallback once and
returns its value; a truthy fallback value is written back via `set` with the
same (absent) TTL, and the value is returned regardless of the write-back's
success (the fault flag of the `set` primitive is unconstrained in the first
two conjuncts); a falsy fallback value is not written back.  When the
write-back succeeds the key subsequently holds the fallback's value. -/
theorem get_miss_populates (flt : Faults) (st : RedisState) (key : String)
    (v : Option String) (hflt : flt.fGet = false)
    (hmiss : jsTruthyStr (st.strs key) = false) :
    (RedisService.get (some ()) flt st key (Except.ok v) none).ret = Except.ok v ∧
    (RedisService.get (some ()) flt st key (Except.ok v) none).fbCalls = 1 ∧
    (jsTruthyStr v = true →
      (RedisService.get (some ()) flt st key (Except.ok v) none).calls =
        [Call.get key, Call.set key (v.getD "")]) ∧
    (jsTruthyStr v = false →
      (RedisService.get (some ()) flt st key (Except.ok v) none).calls = [Call.get key]) ∧
    (jsTruthyStr v = true → flt.fSet = false →
      ((RedisService.get (some ()) flt st key (Except.ok v) none).st).strs key = v) := by
  cases hdt : jsTruthyStr v with
  | false =>
    refine ⟨?_, ?_, ?_, ?_, ?_⟩ <;>
      simp [RedisService.get, RedisService.isRedisInitialized, pGet, hflt, hmiss,
        resetOfGetOptions, bypassOfGetOptions, hdt]
  | true =>
    rcases v with _ | s
    · simp [jsTruthyStr] at hdt
    · rcases hps : pSet flt st key s with e | st1
      · refine ⟨?_, ?_, ?_, ?_, fun _ hset => ?_⟩
        · simp [RedisService.get, RedisService.set, RedisService.isRedisInitialized, pGet,
            hflt, hmiss, resetOfGetOptions, bypassOfGetOptions, hdt, ttlOfGetOptions, hps]
        · simp [RedisService.get, RedisService.set, RedisService.isRedisInitialized, pGet,
            hflt, hmiss, resetOfGetOptions, bypassOfGetOptions, hdt, ttlOfGetOptions, hps]
        · simp [RedisService.get, RedisService.set, RedisService.isRedisInitialized, pGet,
            hflt, hmiss, resetOfGetOptions, bypassOfGetOptions, hdt, ttlOfGetOptions, hps]
        · simp [hdt]
        · exact absurd hps (by simp [pSet, hset])
      · have h1 := pSet_ok_strs hps
        refine ⟨?_, ?_, ?_, ?_, fun _ _ => ?_⟩ <;>
          simp [RedisService.get, RedisService.set, RedisService.isRedisInitialized, pGet,
            hflt, hmiss, resetOfGetOptions, bypassOfGetOptions, ttlOfGetOptions,
            ttlOfSetOptions, isDefined, hdt, hps, h1]

/-- C6 (amended): `bypassFallbackIfNotFound` short-circuits a miss to the raw
miss value, without invoking the fallback, only when `resetIfNotFound` is
`false`; when `resetIfNotFound` is `true` (including by default) the
miss-population branch takes precedence and the fallback is invoked. -/
theorem get_bypass_behaviour (flt : Faults) (st : RedisState) (key : String) (t : Option Int)
    (hflt : flt.fGet = false) (hmiss : jsTruthyStr (st.strs key) = false) :
    (∀ fb, RedisService.get (some ()) flt st key fb (some ⟨t, some false, some true⟩) =
      ⟨Except.ok (st.strs key), st, [Call.get key], 0, 0⟩) ∧
    (∀ (v : Option String) (r : Option Bool), r.getD true = true →
      (RedisService.get (some ()) flt st key (Except.ok v) (some ⟨t, r, some true⟩)).fbCalls = 1 ∧
      (RedisService.get (some ()) flt st key (Except.ok v) (some ⟨t, r, some true⟩)).ret =
        Except.ok v) := by
  constructor
  · intro fb
    simp [RedisService.get, RedisService.isRedisInitialized, pGet, hflt, hmiss,
      resetOfGetOptions, bypassOfGetOptions]
  · intro v r hr
    cases hdt : jsTruthyStr v with
    | false =>
      constructor <;>
        simp [RedisService.get, RedisService.isRedisInitialized, pGet, hflt, hmiss,
          resetOfGetOptions, bypassOfGetOptions, hr, hdt]
    | true =>
      rcases hps : pSet flt st key (v.getD "") with e | st1 <;>
        · constructor <;>
            simp [RedisService.get, RedisService.set, RedisService.isRedisInitialized,
              pGet, hflt, hmiss, resetOfGetOptions, bypassOfGetOptions, ttlOfGetOptions,
              hr, hdt, hps]

theorem jsonSet_call_mem (flt : Faults) (st : RedisState) (key path : String)
    (v : RJson) (opts : Option JsonSetOptions) :
    Call.jsonSet key path v ∈ (RedisService.jsonSet (some ()) flt st key path v opts).calls := by
  rcases hps : pJsonSet flt st key path v with e | st1
  · simp [RedisService.jsonSet, RedisService.isRedisInitialized, hps]
  · cases htt : jsTruthyNum (ttlOfJsonSetOptions opts) with
    | false => simp [RedisService.jsonSet, RedisService.isRedisInitialized, hps, htt]
    | true =>
      rcases hpe : pExpire flt st1 key ((ttlOfJsonSetOptions opts).getD 0) with e | st2 <;>
        simp [RedisService.jsonSet, RedisService.isRedisInitialized, hps, htt, hpe]

theorem jsonSet_root_docs (flt : Faults) (st : RedisState) (key : String) (v : RJson)
    (opts : Option JsonSetOptions) (hset : flt.fJsonSet = false) :
    ((RedisService.jsonSet (some ()) flt st key "$" v opts).st).docs key = some v := by
  rcases hps : pJsonSet flt st key "$" v with e | st1
  · rw [pJsonSet] at hps
    simp [hset] at hps
  · have h1 : st1.docs key = some v := by
      rw [pJsonSet] at hps
      simp [hset] at hps
      rw [← hps]
      simp
    cases htt : jsTruthyNum (ttlOfJsonSetOptions opts) with
    | false => simp [RedisService.jsonSet, RedisService.isRedisInitialized, hps, htt, h1]
    | true =>
      rcases hpe : pExpire flt st1 key ((ttlOfJsonSetOptions opts).getD 0) with e | st2
      · simp [RedisService.jsonSet, RedisService.isRedisInitialized, hps, htt, hpe, h1]
      · simp [RedisService.jsonSet, RedisService.isRedisInitialized, hps, htt, hpe,
          (pExpire_ok_shapes hpe).2.2, h1]

/-- C7: on a falsy `jsonGet` read with `resetIfNotFound` true, the fallback is
invoked once, its result is written as the whole document at root path `$`
(whatever sub-path the read requested), and the fallback's result is returned
to the caller; the return value holds for every fault configuration of the
write-back (the `json.set`/`expire` fault flags are unconstrained), and a
successful write-back replaces the whole document. -/
theorem jsonGet_miss_populates_root (flt : Faults) (st : RedisState) (key : String) (d : RJson)
    (opts : Option JsonGetOptions) (copts : Option CustomJsonGetOptions)
    (hflt : flt.fJsonGet = false)
    (hmiss : jsTruthyJsonOpt (rawJsonRead st key (pathOfJsonGetOptions opts)) = false)
    (hreset : resetOfCustomJsonGetOptions copts = true) :
    (RedisService.jsonGet (some ()) flt st key (Except.ok d) opts copts).ret = Except.ok d ∧
    (RedisService.jsonGet (some ()) flt st key (Except.ok d) opts copts).fbCalls = 1 ∧
    Call.jsonSet key "$" d ∈ (RedisService.jsonGet (some ()) flt st key (Except.ok d) opts copts).calls ∧
    (flt.fJsonSet = false →
      ((RedisService.jsonGet (some ()) flt st key (Except.ok d) opts copts).st).docs key =
        some d) := by
  refine ⟨?_, ?_, ?_, fun hjs => ?_⟩
  · simp [RedisService.jsonGet, RedisService.isRedisInitialized, pJsonGet, hflt, hmiss,
      hreset]
  · simp [RedisService.jsonGet, RedisService.isRedisInitialized, pJsonGet, hflt, hmiss,
      hreset]
  · simp [RedisService.jsonGet, RedisService.isRedisInitialized, pJsonGet, hflt, hmiss,
      hreset, jsonSet_call_mem]
  · simp [RedisService.jsonGet, RedisService.isRedisInitialized, pJsonGet, hflt, hmiss,
      hreset, jsonSet_root_docs flt st key d (some ⟨ttlOfCustomJsonGetOptions copts⟩) hjs]

/-- C10: the write operations disagree on a TTL of `0`: `set` guards its
`expire` with `isDefined(ttl)` and so issues `expire(key, 0)`, while `hSet`
and `jsonSet` guard with JavaScript truthiness of the TTL and so issue no
`expire` call for a TTL of `0`. -/
theorem writes_ttl_zero (flt : Faults) (st : RedisState) (key value path : String)
    (m : List (String × String)) (v : RJson) (hset : flt.fSet = false) :
    Call.expire key 0 ∈ (RedisService.set (some ()) flt st key value (some ⟨some 0⟩)).calls ∧
    (∀ t, Call.expire key t ∉ (RedisService.hSet (some ()) flt st key m (some 0)).calls) ∧
    (∀ t, Call.expire key t ∉
      (RedisService.jsonSet (some ()) flt st key path v (some ⟨some 0⟩)).calls) := by
  refine ⟨?_, ?_, ?_⟩
  · rcases hps : pSet flt st key value with e | st1
    · exact absurd hps (by simp [pSet, hset])
    · rcases hpe : pExpire flt st1 key 0 with e | st2 <;>
        simp [RedisService.set, RedisService.isRedisInitialized, hps, isDefined,
          ttlOfSetOptions, hpe]
  · intro t
    rcases hps : pHSet flt st key m with e | st1 <;>
      simp [RedisService.hSet, RedisService.isRedisInitialized, hps, jsTruthyNum]
  · intro t
    rcases hps : pJsonSet flt st key path v with e | st1 <;>
      simp [RedisService.jsonSet, RedisService.isRedisInitialized, hps, jsTruthyNum,
        ttlOfJsonSetOptions]

/-! ## The claims -/

/-- C1: when the store handle is `null`, the read operations `get`, `hGet`,
`hGetAll` and `jsonGet` return exactly the fallback producer's result
(invoking it once), the write operations `set`, `hSet` and `jsonSet` return
`false`, and in all cases no store method is invoked and the store state is
untouched. -/
theorem nullClient_degrades_c1 :
    (∀ (flt : Faults) (st : RedisState) (key : String)
        (fb : Except String (Option String)) (copts : Option GetOptions),
      RedisService.get none flt st key fb copts = ⟨fb, st, [], 1, 0⟩) ∧
    (∀ (flt : Faults) (st : RedisState) (key field : String)
        (fb : Except String (Option String)) (ttl : Option Int),
      RedisService.hGet none flt st key field fb ttl = ⟨fb, st, [], 1, 0⟩) ∧
    (∀ (flt : Faults) (st : RedisState) (key : String)
        (fb : Except String (List (String × String))) (ttl : Option Int),
      RedisService.hGetAll none flt st key fb ttl = ⟨fb, st, [], 1, 0⟩) ∧
    (∀ (flt : Faults) (st : RedisState) (key : String) (fb : Except String RJson)
        (opts : Option JsonGetOptions) (copts : Option CustomJsonGetOptions),
      RedisService.jsonGet none flt st key fb opts copts = ⟨fb, st, [], 1, 0⟩) ∧
    (∀ (flt : Faults) (st : RedisState) (key value : String)
        (opts : Option SetOptions),
      RedisService.set none flt st key value opts = ⟨Except.ok false, st, [], 0, 0⟩) ∧
    (∀ (flt : Faults) (st : RedisState) (key : String)
        (value : List (String × String)) (ttl : Option Int),
      RedisService.hSet none flt st key value ttl = ⟨Except.ok false, st, [], 0, 0⟩) ∧
    (∀ (flt : Faults) (st : RedisState) (key path : String) (value : RJson)
        (opts : Option JsonSetOptions),
      RedisService.jsonSet none flt st key path value opts =
        ⟨Except.ok false, st, [], 0, 0⟩) :=
  ⟨fun _ _ _ _ _ => rfl, fun _ _ _ _ _ _ => rfl, fun _ _ _ _ _ => rfl,
   fun _ _ _ _ _ _ => rfl, fun _ _ _ _ _ => rfl, fun _ _ _ _ _ => rfl,
   fun _ _ _ _ _ _ => rfl⟩

/-- C2: whenever a store primitive throws during an operation (the operation
records at least one store error), the operation does not raise: it resolves
to `false` for `set`, `hSet`, `jsonSet`, `hDel` and `del`, and to the
fallback producer's value for `get`, `hGet`, `hGetAll` and `jsonGet`. -/
theorem storeError_degrades_c2 :
    (∀ (flt : Faults) (st : RedisState) (key value : String)
        (opts : Option SetOptions),
      (RedisService.set (some ()) flt st key value opts).storeErrs > 0 →
      (RedisService.set (some ()) flt st key value opts).ret = Except.ok false) ∧
    (∀ (flt : Faults) (st : RedisState) (key : String)
        (value : List (String × String)) (ttl : Option Int),
      (RedisService.hSet (some ()) flt st key value ttl).storeErrs > 0 →
      (RedisService.hSet (some ()) flt st key value ttl).ret = Except.ok false) ∧
    (∀ (flt : Faults) (st : RedisState) (key path : String) (value : RJson)
        (opts : Option JsonSetOptions),
      (RedisService.jsonSet (some ()) flt st key path value opts).storeErrs > 0 →
      (RedisService.jsonSet (some ()) flt st key path value opts).ret = Except.ok false) ∧
    (∀ (flt : Faults) (st : RedisState) (key : String) (fields : List String),
      (RedisService.hDel (some ()) flt st key fields).storeErrs > 0 →
      (RedisService.hDel (some ()) flt st key fields).ret = Except.ok false) ∧
    (∀ (flt : Faults) (st : RedisState) (key : String),
      (RedisService.del (some ()) flt st key).storeErrs > 0 →
      (RedisService.del (some ()) flt st key).ret = Except.ok false) ∧
    (∀ (flt : Faults) (st : RedisState) (key : String) (v : Option String)
        (copts : Option GetOptions),
      (RedisService.get (some ()) flt st key (Except.ok v) copts).storeErrs > 0 →
      (RedisService.get (some ()) flt st key (Except.ok v) copts).ret = Except.ok v) ∧
    (∀ (flt : Faults) (st : RedisState) (key field : String) (v : Option String)
        (ttl : Option Int),
      (RedisService.hGet (some ()) flt st key field (Except.ok v) ttl).storeErrs > 0 →
      (RedisService.hGet (some ()) flt st key field (Except.ok v) ttl).ret = Except.ok v) ∧
    (∀ (flt : Faults) (st : RedisState) (key : String)
        (v : List (String × String)) (ttl : Option Int),
      (RedisService.hGetAll (some ()) flt st key (Except.ok v) ttl).storeErrs > 0 →
      (RedisService.hGetAll (some ()) flt st key (Except.ok v) ttl).ret = Except.ok v) ∧
    (∀ (flt : Faults) (st : RedisState) (key : String) (d : RJson)
        (opts : Option JsonGetOptions) (copts : Option CustomJsonGetOptions),
      (RedisService.jsonGet (some ()) flt st key (Except.ok d) opts copts).storeErrs > 0 →
      (RedisService.jsonGet (some ()) flt st key (Except.ok d) opts copts).ret =
        Except.ok d) :=
  ⟨set_storeErr_ret, hSet_storeErr_ret, jsonSet_storeErr_ret, hDel_storeErr_ret,
   del_storeErr_ret, get_storeErr_ret, hGet_storeErr_ret, hGetAll_storeErr_ret,
   jsonGet_storeErr_ret⟩

/-- Witness for C2: a `del` whose store primitive throws records a store
error and resolves to `false`. -/
theorem storeError_degrades_c2_witness :
    (RedisService.del (some ()) fltDel st0 "k").storeErrs > 0 ∧
    (RedisService.del (some ()) fltDel st0 "k").ret = Except.ok false :=
  ⟨by decide, storeError_degrades_c2.2.2.2.2.1 fltDel st0 "k" (by decide)⟩

/-- Counterexample to C3 as stated: with `"k" -> "v"` cached and
`get("k", fallback, {ttl: 100})`, the hit value is returned and the fallback
is not invoked, but no `expire("k", 100)` call is issued (the only store call
is the read), contradicting "refreshes k's expiry to t seconds". -/
theorem get_hit_ttl_c3_counterexample :
    (RedisService.get (some ()) noFaults stKV "k" (Except.ok (some "fb"))
        (some ⟨some 100, none, none⟩)).ret = Except.ok (some "v") ∧
    (RedisService.get (some ()) noFaults stKV "k" (Except.ok (some "fb"))
        (some ⟨some 100, none, none⟩)).fbCalls = 0 ∧
    Call.expire "k" 100 ∉ (RedisService.get (some ()) noFaults stKV "k"
        (Except.ok (some "fb")) (some ⟨some 100, none, none⟩)).calls := by
  refine ⟨rfl, rfl, ?_⟩
  show Call.expire "k" 100 ∉ [Call.get "k"]
  simp

/-- Witness for C3 (amended) at a concrete hit. -/
theorem get_hit_returns_without_expire_witness :
    RedisService.get (some ()) noFaults stKV "k" (Except.ok (some "fb"))
        (some ⟨some 100, none, none⟩) =
      ⟨Except.ok (some "v"), stKV, [Call.get "k"], 0, 0⟩ :=
  get_hit_returns_without_expire noFaults stKV "k" "v" 100 (Except.ok (some "fb"))
    rfl rfl rfl

/-- Counterexample to C4 as stated: `hGet` on an absent hash with a TTL of 5
issues `expire("h", 5)` even though the read returns absent and the key does
not exist after the operation. -/
theorem hGet_miss_expire_c4_counterexample :
    Call.expire "h" 5 ∈ (RedisService.hGet (some ()) noFaults st0 "h" "f"
        (Except.ok (some "Y")) (some 5)).calls ∧
    (RedisService.hGet (some ()) noFaults st0 "h" "f"
        (Except.ok (some "Y")) (some 5)).ret = Except.ok (some "Y") ∧
    ((RedisService.hGet (some ()) noFaults st0 "h" "f"
        (Except.ok (some "Y")) (some 5)).st).hshs "h" = [] := by
  refine ⟨?_, rfl, rfl⟩
  show Call.expire "h" 5 ∈ [Call.hGet "h" "f", Call.expire "h" 5]
  simp

/-- C4 (amended): after `set`, `hSet`, `jsonSet`, `get`, `hGetAll` and
`jsonGet`, an issued `expire` for the operation's key implies the key is
present (in the operation's value shape) in the final store state; `hGet`
however issues `expire` exactly when the supplied TTL is truthy, regardless
of whether the requested field or the key is present. -/
theorem expire_after_presence_c4 :
    (∀ (flt : Faults) (st : RedisState) (key value : String)
        (opts : Option SetOptions) (t : Int),
      Call.expire key t ∈ (RedisService.set (some ()) flt st key value opts).calls →
      (((RedisService.set (some ()) flt st key value opts).st).strs key).isSome = true) ∧
    (∀ (flt : Faults) (st : RedisState) (key : String)
        (m : List (String × String)) (ttl : Option Int) (t : Int),
      Call.expire key t ∈ (RedisService.hSet (some ()) flt st key m ttl).calls →
      ((RedisService.hSet (some ()) flt st key m ttl).st).hshs key ≠ []) ∧
    (∀ (flt : Faults) (st : RedisState) (key path : String) (v : RJson)
        (opts : Option JsonSetOptions) (t : Int),
      Call.expire key t ∈ (RedisService.jsonSet (some ()) flt st key path v opts).calls →
      (((RedisService.jsonSet (some ()) flt st key path v opts).st).docs key).isSome =
        true) ∧
    (∀ (flt : Faults) (st : RedisState) (key : String)
        (fb : Except String (Option String)) (copts : Option GetOptions) (t : Int),
      Call.expire key t ∈ (RedisService.get (some ()) flt st key fb copts).calls →
      (((RedisService.get (some ()) flt st key fb copts).st).strs key).isSome = true) ∧
    (∀ (flt : Faults) (st : RedisState) (key : String)
        (fb : Except String (List (String × String))) (ttl : Option Int) (t : Int),
      Call.expire key t ∈ (RedisService.hGetAll (some ()) flt st key fb ttl).calls →
      ((RedisService.hGetAll (some ()) flt st key fb ttl).st).hshs key ≠ []) ∧
    (∀ (flt : Faults) (st : RedisState) (key : String) (fb : Except String RJson)
        (opts : Option JsonGetOptions) (copts : Option CustomJsonGetOptions) (t : Int),
      Call.expire key t ∈ (RedisService.jsonGet (some ()) flt st key fb opts copts).calls →
      (((RedisService.jsonGet (some ()) flt st key fb opts copts).st).docs key).isSome =
        true) ∧
    (∀ (flt : Faults) (st : RedisState) (key field : String)
        (fb : Except String (Option String)) (ttl : Option Int) (t : Int),
      flt.fHGet = false →
      (Call.expire key t ∈ (RedisService.hGet (some ()) flt st key field fb ttl).calls ↔
        ttl = some t ∧ t ≠ 0)) :=
  ⟨set_expire_present, hSet_expire_present, jsonSet_expire_present, get_expire_present,
   hGetAll_expire_nonempty, jsonGet_expire_present, hGet_expire_iff⟩

/-- Witness for C4 (amended): the `hGet` conjunct at a concrete input — a
truthy TTL of 5 on an absent hash issues the `expire` call. -/
theorem expire_after_presence_c4_witness :
    noFaults.fHGet = false ∧
    Call.expire "h" 5 ∈ (RedisService.hGet (some ()) noFaults st0 "h" "f"
      (Except.ok (some "Y")) (some 5)).calls :=
  ⟨rfl, (expire_after_presence_c4.2.2.2.2.2.2 noFaults st0 "h" "f"
    (Except.ok (some "Y")) (some 5) 5 rfl).mpr ⟨rfl, by decide⟩⟩

/-- Witness for C5 at a concrete miss, with the write-back's `set` primitive
forced to fail: the fallback's value is still returned. -/
theorem get_miss_populates_witness :
    (RedisService.get (some ()) fltSet st0 "k" (Except.ok (some "X")) none).ret =
      Except.ok (some "X") ∧
    (RedisService.get (some ()) fltSet st0 "k" (Except.ok (some "X")) none).fbCalls = 1 :=
  ⟨(get_miss_populates fltSet st0 "k" (some "X") rfl rfl).1,
   (get_miss_populates fltSet st0 "k" (some "X") rfl rfl).2.1⟩

/-- Counterexample to C6 as stated: on a miss with `bypassFallbackIfNotFound`
set and `resetIfNotFound` left at its default (`true`), `get` invokes the
fallback (once) and returns its value — not the raw miss value without
invoking the fallback. -/
theorem get_bypass_c6_counterexample :
    (RedisService.get (some ()) noFaults st0 "k" (Except.ok (some "X"))
        (some ⟨none, none, some true⟩)).fbCalls = 1 ∧
    (RedisService.get (some ()) noFaults st0 "k" (Except.ok (some "X"))
        (some ⟨none, none, some true⟩)).ret = Except.ok (some "X") :=
  ⟨rfl, rfl⟩

/-- Witness for C6 (amended): with `resetIfNotFound` explicitly `false`, a
miss under `bypassFallbackIfNotFound` returns the raw miss value with no
fallback invocation. -/
theorem get_bypass_behaviour_witness :
    RedisService.get (some ()) noFaults st0 "k" (Except.ok (some "X"))
        (some ⟨none, some false, some true⟩) =
      ⟨Except.ok none, st0, [Call.get "k"], 0, 0⟩ :=
  (get_bypass_behaviour noFaults st0 "k" none rfl rfl).1 (Except.ok (some "X"))

/-- Witness for C7: a path-restricted read (`$.a`) missing inside the stored
document `{"b": 2}` triggers the fallback, and its result `{"a": 1}` replaces
the whole document at root. -/
theorem jsonGet_miss_populates_root_witness :
    (RedisService.jsonGet (some ()) noFaults stDoc "doc"
        (Except.ok (RJson.obj [("a", RJson.num 1)])) (some ⟨some "$.a"⟩) none).ret =
      Except.ok (RJson.obj [("a", RJson.num 1)]) ∧
    ((RedisService.jsonGet (some ()) noFaults stDoc "doc"
        (Except.ok (RJson.obj [("a", RJson.num 1)])) (some ⟨some "$.a"⟩) none).st).docs
      "doc" = some (RJson.obj [("a", RJson.num 1)]) :=
  ⟨(jsonGet_miss_populates_root noFaults stDoc "doc" (RJson.obj [("a", RJson.num 1)])
      (some ⟨some "$.a"⟩) none rfl rfl rfl).1,
   (jsonGet_miss_populates_root noFaults stDoc "doc" (RJson.obj [("a", RJson.num 1)])
      (some ⟨some "$.a"⟩) none rfl rfl rfl).2.2.2 rfl⟩

/-- Counterexample to C8 as stated: with the store handle `null`, `hDel`
returns `false`, not the claimed vacuous success `true`. -/
theorem hDel_null_c8_counterexample :
    (RedisService.hDel none noFaults st0 "k" ["f"]).ret ≠ Except.ok true := by
  simp [RedisService.hDel, RedisService.isRedisInitialized]

/-- C8 (amended): with the store handle `null` and no store contact, `del`
returns `true` (vacuous success) but `hDel` returns `false` (treated like a
write-type operation by its availability gate). -/
theorem null_delete_convention_c8 :
    (∀ (flt : Faults) (st : RedisState) (key : String),
      RedisService.del none flt st key = ⟨Except.ok true, st, [], 0, 0⟩) ∧
    (∀ (flt : Faults) (st : RedisState) (key : String) (fields : List String),
      RedisService.hDel none flt st key fields = ⟨Except.ok false, st, [], 0, 0⟩) :=
  ⟨fun _ _ _ => rfl, fun _ _ _ _ => rfl⟩

/-- Counterexample to C9 as stated: on `get`'s miss-population path a failing
fallback is invoked twice — the first failure is caught by the store-error
handler (so the core does catch a fallback failure), and the handler invokes
the fallback again, whose failure then propagates. -/
theorem fallback_twice_c9_counterexample :
    (RedisService.get (some ()) noFaults st0 "k" (Except.error "boom") none).fbCalls = 2 ∧
    (RedisService.get (some ()) noFaults st0 "k" (Except.error "boom") none).ret =
      Except.error "boom" :=
  ⟨rfl, rfl⟩

/-- C9 (amended): a read operation whose fallback producer always fails with
`e` either never invokes the fallback or rejects with exactly `e`; the
fallback is invoked at most twice per call for `get`/`jsonGet` (twice exactly
on the caught miss-population path) and at most once for `hGet`/`hGetAll`. -/
theorem fallback_failure_c9 :
    (∀ (client : Option Unit) (flt : Faults) (st : RedisState) (key e : String)
        (copts : Option GetOptions),
      ((RedisService.get client flt st key (Except.error e) copts).ret =
          Except.error e ∨
        (RedisService.get client flt st key (Except.error e) copts).fbCalls = 0) ∧
      (RedisService.get client flt st key (Except.error e) copts).fbCalls ≤ 2) ∧
    (∀ (client : Option Unit) (flt : Faults) (st : RedisState) (key field e : String)
        (ttl : Option Int),
      ((RedisService.hGet client flt st key field (Except.error e) ttl).ret =
          Except.error e ∨
        (RedisService.hGet client flt st key field (Except.error e) ttl).fbCalls = 0) ∧
      (RedisService.hGet client flt st key field (Except.error e) ttl).fbCalls ≤ 1) ∧
    (∀ (client : Option Unit) (flt : Faults) (st : RedisState) (key e : String)
        (ttl : Option Int),
      ((RedisService.hGetAll client flt st key (Except.error e) ttl).ret =
          Except.error e ∨
        (RedisService.hGetAll client flt st key (Except.error e) ttl).fbCalls = 0) ∧
      (RedisService.hGetAll client flt st key (Except.error e) ttl).fbCalls ≤ 1) ∧
    (∀ (client : Option Unit) (flt : Faults) (st : RedisState) (key e : String)
        (opts : Option JsonGetOptions) (copts : Option CustomJsonGetOptions),
      ((RedisService.jsonGet client flt st key (Except.error e) opts copts).ret =
          Except.error e ∨
        (RedisService.jsonGet client flt st key (Except.error e) opts copts).fbCalls = 0) ∧
      (RedisService.jsonGet client flt st key (Except.error e) opts copts).fbCalls ≤ 2) :=
  ⟨get_fbError, hGet_fbError, hGetAll_fbError, jsonGet_fbError⟩

/-- Witness for C10's hypothesis-bearing conjunct: with a fault-free store,
`set` with a TTL of `0` issues `expire("k", 0)`. -/
theorem writes_ttl_zero_witness :
    noFaults.fSet = false ∧
    Call.expire "k" 0 ∈ (RedisService.set (some ()) noFaults st0 "k" "v"
      (some ⟨some 0⟩)).calls :=
  ⟨rfl, (writes_ttl_zero noFaults st0 "k" "v" "$" [] RJson.null rfl).1⟩
